import Mathlib

/-!
# Verification of `how_much.py` (car.gr classified-ads scraper)

A shallow embedding of the scraper's core (field normalization, listing
extraction, pagination, crawl orchestration) from `src/how_much.py`,
together with theorems settling the frozen claims about its specification.

Python strings are modelled as lists of characters (`PyStr`).  Python
exceptions are modelled with an explicit error type (`PyErr`) and the
`Except` monad: an uncaught exception in the source is an `Except.error`
value that propagates.  Python `float` values arising from `float(token)`
on plain decimal tokens are modelled exactly, as a pair
(mantissa, scale) denoting `mantissa / 10 ^ scale`; all arithmetic on
them is exact integer arithmetic.
-/

abbrev PyStr := List Char

/-- Error kinds for the Python exceptions the embedded code can raise. -/
inductive PyErr where
  /-- `ValueError`: failed `int()` / `float()` conversion, bad date. -/
  | valueError
  /-- `IndexError`: sequence index out of range (`text[-1]`, `text[-5]`, `[-2]`). -/
  | indexError
  /-- `NameError`: lookup of the undefined name `pint` (line 148). -/
  | nameError
  /-- `AttributeError`: attribute access on `None` (line 158, `find` missed). -/
  | attributeError
  /-- `KeyError`/`ValueError` from `str.format` on a stray brace or unknown field. -/
  | keyError
  /-- A failure of the external fetch collaborator (`urlopen`/`sys.exit`). -/
  | fetchError
deriving DecidableEq, Repr

instance {ε α : Type} [DecidableEq ε] [DecidableEq α] : DecidableEq (Except ε α)
  | .error e, .error f =>
    if h : e = f then .isTrue (by rw [h]) else .isFalse (fun c => h (by injection c))
  | .error _, .ok _ => .isFalse (fun c => Except.noConfusion c)
  | .ok _, .error _ => .isFalse (fun c => Except.noConfusion c)
  | .ok a, .ok b =>
    if h : a = b then .isTrue (by rw [h]) else .isFalse (fun c => h (by injection c))

/-! ## Models of the Python built-ins used by the source

These model the exact built-in behaviour on the inputs the program feeds
them: plain decimal text.  Unused corners of the built-ins (exponent or
`inf`/`nan` floats, underscore digit separators, non-ASCII digits) are
outside the modelled subset and noted on each definition.
-/

/-- The six ASCII whitespace characters stripped by Python `str.strip()`
(`' '`, `\t`, `\n`, `\r`, vertical tab, form feed). -/
def isSpaceChar (c : Char) : Bool :=
  c = ' ' || c = '\t' || c = '\n' || c = '\r' || c = '\x0b' || c = '\x0c'

/-- Python `str.strip()`: drop whitespace from both ends. -/
def pyStrip (s : PyStr) : PyStr :=
  ((s.dropWhile isSpaceChar).reverse.dropWhile isSpaceChar).reverse

/-- Numeric value of an ASCII digit character. -/
def digitVal (c : Char) : Nat := c.toNat - 48

/-- Value of a big-endian ASCII digit string. -/
def natOfDigits (l : PyStr) : Nat := l.foldl (fun a c => 10 * a + digitVal c) 0

/-- Unsigned core of Python `int(str)`: a nonempty all-digit string. -/
def intCore (ds : PyStr) : Option Int :=
  if ds ≠ [] ∧ ds.all Char.isDigit then some (natOfDigits ds) else none

/-- Python `int(str)`: strip whitespace, optional sign, nonempty digits.
Modelled subset: no underscore separators, ASCII digits only. -/
def pyIntParse (l : PyStr) : Option Int :=
  let t := pyStrip l
  if t.head? = some '-' then (intCore t.tail).map (fun x => -x)
  else if t.head? = some '+' then intCore t.tail
  else intCore t

/-- Unsigned core of Python `float(str)` on plain decimal text: digits with
at most one `'.'`, at least one digit overall.  The exact value is returned
as (mantissa, scale), denoting `mantissa / 10 ^ scale`. -/
def floatCore (ds : PyStr) : Option (Int × Nat) :=
  let ip := ds.takeWhile (fun c => c ≠ '.')
  let rest := ds.dropWhile (fun c => c ≠ '.')
  if rest = [] then
    if ds ≠ [] ∧ ds.all Char.isDigit then some ((natOfDigits ds : Int), 0) else none
  else
    let fp := rest.tail
    if (ip ++ fp) ≠ [] ∧ ip.all Char.isDigit ∧ fp.all Char.isDigit then
      some ((natOfDigits (ip ++ fp) : Int), fp.length)
    else none

/-- Python `float(str)` on plain decimal literals, exact.
Modelled subset: no exponent, no `inf`/`nan`, no underscores.  The IEEE
double rounding of the real `float` is idealised away: the token's exact
decimal value is kept.  CPython rounds twice (parse to nearest double,
then IEEE multiply), so the idealisation can differ from the program by
one unit on non-dyadic fractions — e.g. `int(float("1.015") * 1000)` is
1014 in CPython while the exact value is 1015.  The idealisation provably
coincides with CPython exactly when the token's value is a dyadic
rational of bounded size (fractional part a multiple of 1/8, at most 12
significant digits): there `float(str)` is exact and the product with
1000 is an integer below 2^53, so no rounding step loses anything.
Universal theorems over this path carry hypotheses delimiting that
domain; concrete inputs (counterexamples, fixtures) are chosen inside
it. -/
def pyFloatParse (l : PyStr) : Option (Int × Nat) :=
  let t := pyStrip l
  if t.head? = some '-' then (floatCore t.tail).map (fun p => (-p.1, p.2))
  else if t.head? = some '+' then floatCore t.tail
  else floatCore t

/-- Python `int(x)` on a float value `a / 10 ^ k`: truncation toward zero. -/
def pyTruncFrac (a : Int) (k : Nat) : Int := Int.tdiv a (10 ^ k)

/-- Python `round(x)` on a float value `a / b` with `b > 0`: round half
to even (banker's rounding). -/
def pyRoundFrac (a b : Int) : Int :=
  let q := Int.fdiv a b
  let r := a - q * b
  if 2 * r < b then q else if b < 2 * r then q + 1 else if q % 2 = 0 then q else q + 1

/-- Decimal digit characters of a natural number, structural via fuel. -/
def natDigitsAux : Nat → Nat → PyStr
  | 0, _ => []
  | fuel + 1, n =>
    if n < 10 then [Char.ofNat (48 + n)]
    else natDigitsAux fuel (n / 10) ++ [Char.ofNat (48 + n % 10)]

/-- Decimal representation of a natural number, as produced by Python
`str.format` on an `int`. -/
def natDigits (n : Nat) : PyStr := natDigitsAux (n + 1) n

/-- Substring containment, Python's `pat in s`. -/
def containsSub (pat s : PyStr) : Bool := s.tails.any (fun t => pat.isPrefixOf t)

/-! ## Field Normalizer (`how_much.py` lines 147-151) -/

/-- Line 147:
`int(float(distance[:-3]) * 1000) if "." in distance else int(distance[:-3])`.
The `"."` test is on the full raw token; the slice `[:-3]` drops the final
three characters (the unit suffix). -/
def normDistance (s : PyStr) : Except PyErr Int :=
  let cleaned := s.take (s.length - 3)
  if s.contains '.' then
    match pyFloatParse cleaned with
    | some (m, k) => .ok (pyTruncFrac (m * 1000) k)
    | none => .error .valueError
  else
    match pyIntParse cleaned with
    | some n => .ok n
    | none => .error .valueError

/-- Line 148:
`int(float(price[2:]) * 1000) if "." in price else pint(price[2:])`.
The else-branch names `pint`, which is not defined anywhere in the module:
evaluating it raises `NameError` at run time. -/
def normPrice (s : PyStr) : Except PyErr Int :=
  let cleaned := s.drop 2
  if s.contains '.' then
    match pyFloatParse cleaned with
    | some (m, k) => .ok (pyTruncFrac (m * 1000) k)
    | none => .error .valueError
  else .error .nameError

/-- Split a character list at a separator character (Python `str.split(sep)`
with a one-character separator: no merging of adjacent separators). -/
def splitSep (sep : Char) : PyStr → List PyStr
  | [] => [[]]
  | c :: rest =>
    let r := splitSep sep rest
    if c = sep then [] :: r
    else match r with
      | [] => [[c]]
      | h :: t => (c :: h) :: t

/-- Lines 149-151:
`month, year = map(int, date.split("/"))` then
`year += 2000 if year < 20 else 1990` then `datetime.date(year, month, 1)`.
Result is the (year, month) pair carried by the constructed `date`.
A split of length other than two, an unparsable part, or a value outside
`datetime.date`'s ranges (month 1-12, year 1-9999) raises `ValueError`. -/
def normDate (s : PyStr) : Except PyErr (Int × Int) :=
  match splitSep '/' s with
  | [a, b] =>
    match pyIntParse a, pyIntParse b with
    | some m, some y =>
      let y := y + (if y < 20 then 2000 else 1990)
      if 1 ≤ m ∧ m ≤ 12 ∧ 1 ≤ y ∧ y ≤ 9999 then .ok (y, m) else .error .valueError
    | _, _ => .error .valueError
  | _ => .error .valueError

/-! ## Parsed pages and the Listing Extractor (`how_much.py` lines 138-153) -/

/-- One parsed page, as the Listing Extractor and Pager consume it.
`adBlocks` holds, per `div.clsfd_list_row_group` element in page order, the
raw result of `ad.text.splitlines()`.  `pagination` holds the result of
`soup.find("ul", class_="pagination pull-right")`: `none` when the element
is absent, otherwise its `.text.splitlines()`. -/
structure Soup where
  adBlocks : List (List PyStr)
  pagination : Option (List PyStr)
deriving DecidableEq

/-- The emitted record `(description, distance, price, date)` of line 152;
the constructed `datetime.date(year, month, 1)` is carried as its
year and month. -/
structure Listing where
  description : PyStr
  distance : Int
  price : Int
  year : Int
  month : Int
deriving DecidableEq, Repr

/-- Line 141: `[line.strip() for line in ad.text.splitlines() if line.strip()]`. -/
def cleanLines (raw : List PyStr) : List PyStr :=
  (raw.map pyStrip).filter (fun l => l ≠ [])

/-- The script-injection marker of line 143. -/
def injectionMarker : PyStr := "googletag".toList

/-- Lines 143-144: `if "googletag" in text[-1]: text.pop()`.
On an empty `text`, the `text[-1]` lookup itself raises `IndexError`. -/
def dropInjected (text : List PyStr) : Except PyErr (List PyStr) :=
  match text.getLast? with
  | none => .error .indexError
  | some last =>
    .ok (if containsSub injectionMarker last then text.dropLast else text)

/-- Lines 141-152, one ad block: clean the lines, apply the injection
cleanup, take the positional fields
`text[0], text[-2], text[-3], text[-5]`, normalize each, and build the
record.  Fewer than five lines after cleanup make the positional lookups
raise `IndexError`.  Normalizers run in source order: distance (147),
price (148), date (149-151). -/
def extractBlock (raw : List PyStr) : Except PyErr Listing := do
  let text ← dropInjected (cleanLines raw)
  if 5 ≤ text.length then
    let description := text.getD 0 []
    let distance ← normDistance (text.getD (text.length - 2) [])
    let price ← normPrice (text.getD (text.length - 3) [])
    let ym ← normDate (text.getD (text.length - 5) [])
    pure ⟨description, distance, price, ym.1, ym.2⟩
  else .error .indexError

/-- The `for`-loop body of lines 140-152 over all blocks: listings are
accumulated in page order; any exception aborts the whole page. -/
def extractBlocks : List (List PyStr) → Except PyErr (List Listing)
  | [] => .ok []
  | b :: bs => do
    let l ← extractBlock b
    let rest ← extractBlocks bs
    pure (l :: rest)

/-- Lines 138-153: `get_page_bikes(soup)`. -/
def get_page_bikes (soup : Soup) : Except PyErr (List Listing) :=
  extractBlocks soup.adBlocks

/-! ## Pager (`how_much.py` lines 123-126 and 156-160) -/

/-- Lines 156-160: `get_last_page_number(soup)`.
`soup.find(...)` returning `None` makes `.text` raise `AttributeError`
(not caught: the `except` clause names only `ValueError`).  A text with
fewer than two lines makes `[-2]` raise `IndexError` (also not caught).
Only the `ValueError` of a failed `int(...)` is caught, yielding `2`. -/
def get_last_page_number (soup : Soup) : Except PyErr Int :=
  match soup.pagination with
  | none => .error .attributeError
  | some lines =>
    if 2 ≤ lines.length then
      match pyIntParse (lines.getD (lines.length - 2) []) with
      | some n => .ok n
      | none => .ok 2
    else .error .indexError

/-- Does a `&pg=` followed by a digit start here?  (The unit the regex
`(.*)&pg=[0-9]+(.*)` consumes at the position greedy backtracking picks.) -/
def isChunkHere (l : PyStr) : Bool :=
  decide (l.take 4 = ['&', 'p', 'g', '=']) && ((l.drop 4).headD ' ').isDigit

/-- One line of `re.sub(r"(.*)&pg=[0-9]+(.*)", r"\1\2", url)`.
Within one line (`.` does not match a newline) the leftmost match starts
at the line head, greedy `(.*)` picks the last position where `&pg=` is
followed by a digit, `[0-9]+` consumes the maximal digit run there, and
the replacement keeps everything else.  `subAux` returns the line with
that last chunk removed, or `none` when no chunk occurs. -/
def subAux : PyStr → Option PyStr
  | [] => none
  | c :: rest =>
    match subAux rest with
    | some r => some (c :: r)
    | none =>
      if isChunkHere (c :: rest) then some ((c :: rest).drop 4 |>.dropWhile Char.isDigit)
      else none

/-- A line after the substitution: unchanged when no chunk occurs. -/
def subLine (l : PyStr) : PyStr := (subAux l).getD l

/-- Rejoin lines with newlines. -/
def joinNL : List PyStr → PyStr
  | [] => []
  | [l] => l
  | l :: ls => l ++ '\n' :: joinNL ls

/-- Line 124: `re.sub(r"(.*)&pg=[0-9]+(.*)", r"\1\2", url)` on the whole
string: each line loses its last `&pg=<digits>` chunk. -/
def stripPg (url : PyStr) : PyStr := joinNL ((splitSep '\n' url).map subLine)

/-- Lines 123-126: `normalize_url(url)`. -/
def normalize_url (url : PyStr) : PyStr := stripPg url ++ "&pg={page}".toList

/-- Python `tpl.format(page=n)`: replace each `{page}` field with the
decimal digits of `n`; `{{`/`}}` are brace escapes; any other brace raises
(`KeyError` for an unknown field name, `ValueError` for a stray brace). -/
def pyFormatPage : PyStr → Nat → Except PyErr PyStr
  | [], _ => .ok []
  | c :: rest, n =>
    if c = '{' then
      match rest with
      | '{' :: r => (fun t => '{' :: t) <$> pyFormatPage r n
      | 'p' :: 'a' :: 'g' :: 'e' :: '}' :: r => (fun t => natDigits n ++ t) <$> pyFormatPage r n
      | _ => .error .keyError
    else if c = '}' then
      match rest with
      | '}' :: r => (fun t => '}' :: t) <$> pyFormatPage r n
      | _ => .error .keyError
    else (fun t => c :: t) <$> pyFormatPage rest n

/-! ## Crawl Orchestrator (`how_much.py` lines 163-178) -/

/-- The loop of lines 173-176 over the given page numbers: instantiate the
template, fetch (the external collaborator `get_soup`, whose failure —
bad URL or network error — is an `Except.error`), extract, append. -/
def crawlPages (fetch : PyStr → Except PyErr Soup) (tpl : PyStr) :
    List Nat → Except PyErr (List Listing)
  | [] => .ok []
  | p :: ps => do
    let up ← pyFormatPage tpl p
    let soup ← fetch up
    let bikes ← get_page_bikes soup
    let rest ← crawlPages fetch tpl ps
    pure (bikes ++ rest)

/-- Lines 163-178: `get_data(url)`, parameterized by the fetch
collaborator.  Page 1 is fetched and extracted first; the page count is
read off page 1's pagination control; `range(2, last + 1)` gives the
remaining pages in increasing order; all listings are concatenated in
fetch order. -/
def get_data (fetch : PyStr → Except PyErr Soup) (url : PyStr) :
    Except PyErr (List Listing) := do
  let u1 ← pyFormatPage (normalize_url url) 1
  let soup1 ← fetch u1
  let bikes1 ← get_page_bikes soup1
  let last ← get_last_page_number soup1
  let rest ← crawlPages fetch (normalize_url url) (List.range' 2 (last - 1).toNat)
  pure (bikes1 ++ rest)

/-! ## Concrete fixtures for the sample-page and fixture-site properties -/

/-- Sample block 1: a plain six-line ad block. -/
def sampleBlock1 : List PyStr :=
  ["Honda CBR".toList, "07/15".toList, "meta".toList, "€ 2.5".toList,
   "12.5 km".toList, "extra".toList]

/-- Sample block 2: same shape, with a trailing injected analytics line. -/
def sampleBlock2 : List PyStr :=
  ["Yamaha R1".toList, "03/99".toList, "meta".toList, "€ 3.0".toList,
   "20.0 km".toList, "extra".toList, "googletag stuff".toList]

/-- Sample block 3: a plain six-line ad block. -/
def sampleBlock3 : List PyStr :=
  ["Vespa".toList, "11/07".toList, "meta".toList, "€ 1.2".toList,
   "8.5 km".toList, "extra".toList]

/-- The fixed sample page of the spec's extractor test: three ad blocks,
the second one carrying the injection marker on its final line. -/
def samplePage : Soup := ⟨[sampleBlock1, sampleBlock2, sampleBlock3], none⟩

/-- Listing extracted from `sampleBlock1`. -/
def sampleListing1 : Listing := ⟨"Honda CBR".toList, 12500, 2500, 2015, 7⟩

/-- Listing extracted from `sampleBlock2` (after the marker line is dropped). -/
def sampleListing2 : Listing := ⟨"Yamaha R1".toList, 20000, 3000, 2089, 3⟩

/-- Listing extracted from `sampleBlock3`. -/
def sampleListing3 : Listing := ⟨"Vespa".toList, 8500, 1200, 2007, 11⟩

/-- An ad block whose distance token `"abc km"` is malformed (non-numeric
after cleaning): its extraction raises `ValueError`. -/
def malformedBlock : List PyStr :=
  ["Broken".toList, "07/15".toList, "meta".toList, "€ 2.5".toList,
   "abc km".toList, "extra".toList]

/-- The URL template instantiated at page `k`, as produced by
`normalize_url` followed by `tpl.format(page=k)` on a single-line,
brace-free URL. -/
def instPage (u : PyStr) (k : Nat) : PyStr :=
  subLine u ++ "&pg=".toList ++ natDigits k

/-- Fixture page 1 of the two-page crawl test: listings A and B, and a
pagination control whose second-to-last line reads 2. -/
def fixturePage1 : Soup :=
  ⟨[sampleBlock1, sampleBlock2], some ["1".toList, "2".toList, "»".toList]⟩

/-- Fixture page 2 of the two-page crawl test: listing C. -/
def fixturePage2 : Soup :=
  ⟨[sampleBlock3], some ["1".toList, "2".toList, "»".toList]⟩

/-- The fetch collaborator of the two-page fixture site. -/
def fixtureFetch (u : PyStr) : Except PyErr Soup :=
  if u = "http://car.gr?x=1&pg=1".toList then .ok fixturePage1
  else if u = "http://car.gr?x=1&pg=2".toList then .ok fixturePage2
  else .error .fetchError

/-- Per-page listings of the fixture site. -/
def fixtureListings (k : Nat) : List Listing :=
  if k = 1 then [sampleListing1, sampleListing2] else [sampleListing3]

/-- Pages of the fixture site, by page number. -/
def fixtureSite (k : Nat) : Soup := if k = 1 then fixturePage1 else fixturePage2

/-! ## Helper lemmas on the built-in models -/

theorem dropWhile_all_false {p : Char → Bool} {l : PyStr}
    (h : ∀ c ∈ l, p c = false) : l.dropWhile p = l := by
  cases l with
  | nil => rfl
  | cons c r => simp [List.dropWhile, h c (by simp)]

theorem pyStrip_eq_self {l : PyStr} (h : ∀ c ∈ l, isSpaceChar c = false) :
    pyStrip l = l := by
  unfold pyStrip
  rw [dropWhile_all_false h, dropWhile_all_false (fun c hc => h c (by simpa using hc)),
    List.reverse_reverse]

theorem isDigit_not_space {c : Char} (h : c.isDigit = true) : isSpaceChar c = false := by
  by_contra hc
  simp only [Bool.not_eq_false, isSpaceChar, Bool.or_eq_true, decide_eq_true_eq] at hc
  rcases hc with ((((rfl | rfl) | rfl) | rfl) | rfl) | rfl <;> simp_all

theorem isDigit_ne_char {c : Char} (d : Char) (h : c.isDigit = true)
    (hd : d.isDigit = false) : c ≠ d := by
  rintro rfl; rw [h] at hd; cases hd

theorem natOfDigits_foldl (l : PyStr) (a : Nat) :
    l.foldl (fun a c => 10 * a + digitVal c) a = a * 10 ^ l.length + natOfDigits l := by
  induction l generalizing a with
  | nil => simp [natOfDigits]
  | cons c r ih =>
    simp only [List.foldl_cons, natOfDigits, List.length_cons]
    rw [ih, ih (10 * 0 + digitVal c)]
    ring

theorem natOfDigits_append (a b : PyStr) :
    natOfDigits (a ++ b) = natOfDigits a * 10 ^ b.length + natOfDigits b := by
  unfold natOfDigits
  rw [List.foldl_append, natOfDigits_foldl]
  rfl

theorem pyIntParse_digits {ds : PyStr} (hne : ds ≠ [])
    (hd : ds.all Char.isDigit = true) : pyIntParse ds = some ((natOfDigits ds : Int)) := by
  have hall : ∀ c ∈ ds, c.isDigit = true := by simpa [List.all_eq_true] using hd
  have hstrip : pyStrip ds = ds :=
    pyStrip_eq_self (fun c hc => isDigit_not_space (hall c hc))
  cases ds with
  | nil => exact absurd rfl hne
  | cons c r =>
    have hc : c.isDigit = true := hall c (by simp)
    unfold pyIntParse
    rw [hstrip]
    have h1 : c ≠ '-' := isDigit_ne_char '-' hc (by decide)
    have h2 : c ≠ '+' := isDigit_ne_char '+' hc (by decide)
    rw [if_neg (by simpa using h1), if_neg (by simpa using h2)]
    unfold intCore
    rw [if_pos ⟨hne, hd⟩]

theorem takeWhile_append_stop {p : Char → Bool} {l : PyStr} {b : Char} (r : PyStr)
    (h : ∀ c ∈ l, p c = true) (hb : p b = false) :
    (l ++ b :: r).takeWhile p = l := by
  induction l with
  | nil => simp [List.takeWhile, hb]
  | cons c t ih =>
    rw [List.cons_append, List.takeWhile_cons_of_pos (h c (by simp)),
      ih (fun c hc => h c (by simp [hc]))]

theorem dropWhile_append_stop {p : Char → Bool} {l : PyStr} {b : Char} (r : PyStr)
    (h : ∀ c ∈ l, p c = true) (hb : p b = false) :
    (l ++ b :: r).dropWhile p = b :: r := by
  induction l with
  | nil => simp [List.dropWhile, hb]
  | cons c t ih =>
    rw [List.cons_append, List.dropWhile_cons_of_pos (h c (by simp)),
      ih (fun c hc => h c (by simp [hc]))]

theorem pyFloatParse_dec {ip fp : PyStr} (hip : ip.all Char.isDigit = true)
    (hfp : fp.all Char.isDigit = true) (hne : ip ++ fp ≠ []) :
    pyFloatParse (ip ++ '.' :: fp) = some ((natOfDigits (ip ++ fp) : Int), fp.length) := by
  have hallip : ∀ c ∈ ip, c.isDigit = true := by simpa [List.all_eq_true] using hip
  have hallfp : ∀ c ∈ fp, c.isDigit = true := by simpa [List.all_eq_true] using hfp
  have hstrip : pyStrip (ip ++ '.' :: fp) = ip ++ '.' :: fp := by
    refine pyStrip_eq_self (fun c hc => ?_)
    rcases List.mem_append.mp hc with h | h
    · exact isDigit_not_space (hallip c h)
    · rcases List.mem_cons.mp h with rfl | h
      · decide
      · exact isDigit_not_space (hallfp c h)
  have hne1 : ¬((ip ++ '.' :: fp).head? = some '-') := by
    cases ip with
    | nil => simp
    | cons c t =>
      simp only [List.cons_append, List.head?_cons, Option.some.injEq]
      exact isDigit_ne_char '-' (hallip c (by simp)) (by decide)
  have hne2 : ¬((ip ++ '.' :: fp).head? = some '+') := by
    cases ip with
    | nil => simp
    | cons c t =>
      simp only [List.cons_append, List.head?_cons, Option.some.injEq]
      exact isDigit_ne_char '+' (hallip c (by simp)) (by decide)
  have hcore : floatCore (ip ++ '.' :: fp) =
      some ((natOfDigits (ip ++ fp) : Int), fp.length) := by
    unfold floatCore
    have hpd : ∀ c ∈ ip, (fun c => decide (c ≠ '.')) c = true := fun c hc => by
      simp only [ne_eq, decide_eq_true_eq]
      exact isDigit_ne_char '.' (hallip c hc) (by decide)
    have htake : (ip ++ '.' :: fp).takeWhile (fun c => decide (c ≠ '.')) = ip :=
      takeWhile_append_stop fp hpd (by simp)
    have hdrop : (ip ++ '.' :: fp).dropWhile (fun c => decide (c ≠ '.')) = '.' :: fp :=
      dropWhile_append_stop fp hpd (by simp)
    simp only [htake, hdrop]
    rw [if_neg (by simp), if_pos ⟨hne, hip, hfp⟩]
    rfl
  unfold pyFloatParse
  rw [hstrip, if_neg hne1, if_neg hne2, hcore]

theorem except_bind_ok {ε α β : Type} (a : α) (f : α → Except ε β) :
    (Except.ok a >>= f : Except ε β) = f a := rfl

theorem except_bind_error {ε α β : Type} (e : ε) (f : α → Except ε β) :
    (Except.error e >>= f : Except ε β) = .error e := rfl

theorem pyTruncFrac_exact (b : Int) (k : Nat) : pyTruncFrac (b * 10 ^ k) k = b := by
  unfold pyTruncFrac
  exact Int.mul_tdiv_cancel b (by positivity)

theorem pyRoundFrac_exact (a b : Int) (hb : 0 < b) : pyRoundFrac (a * b) b = a := by
  unfold pyRoundFrac
  rw [Int.mul_fdiv_cancel a (by omega)]
  simp only [sub_self, mul_zero]
  rw [if_pos (by omega)]

theorem char_digit_isDigit {m : Nat} (h : m < 10) :
    (Char.ofNat (48 + m)).isDigit = true := by
  interval_cases m <;> decide

theorem natDigitsAux_all_digit (fuel : Nat) : ∀ n,
    (natDigitsAux fuel n).all Char.isDigit = true := by
  induction fuel with
  | zero => intro n; rfl
  | succ fuel ih =>
    intro n
    unfold natDigitsAux
    split
    · next h => simp [char_digit_isDigit h]
    · next h =>
      simp only [List.all_append, ih (n / 10), Bool.true_and, List.all_cons, List.all_nil,
        Bool.and_true]
      exact char_digit_isDigit (Nat.mod_lt n (by omega))

theorem natDigits_all_digit (n : Nat) : (natDigits n).all Char.isDigit = true :=
  natDigitsAux_all_digit (n + 1) n

theorem natDigits_ne_nil (n : Nat) : natDigits n ≠ [] := by
  unfold natDigits natDigitsAux
  split
  · simp
  · simp

theorem splitSep_no_sep {sep : Char} {l : PyStr} (h : sep ∉ l) :
    splitSep sep l = [l] := by
  induction l with
  | nil => rfl
  | cons c r ih =>
    simp only [splitSep]
    rw [ih (fun hc => h (by simp [hc]))]
    rw [if_neg (fun hc => h (by simp [hc]))]

theorem splitSep_pair {sep : Char} {a b : PyStr} (ha : sep ∉ a) (hb : sep ∉ b) :
    splitSep sep (a ++ sep :: b) = [a, b] := by
  induction a with
  | nil => simp [splitSep, splitSep_no_sep hb]
  | cons c r ih =>
    rw [List.cons_append]
    simp only [splitSep]
    rw [ih (fun hc => ha (by simp [hc]))]
    rw [if_neg (fun hc => ha (by simp [hc]))]

/-! ## Claim theorems -/

/-- Claim C1.  The claim says that for distance and price tokens without a
`'.'`, normalization parses the token as a plain integer for BOTH fields.
The distance field does (`int(distance[:-3])`), but the price field's
else-branch reads `pint(price[2:])` — `pint` is an undefined name, so any
no-dot price token raises `NameError` and aborts the crawl instead of
returning `int(token)`.  Evaluated here at the failing input
`"€ 1500"` (and, for contrast, at the distance token `"1500 km"`, where
the claim's behaviour does hold). -/
theorem claim1_price_no_dot_raises_nameError :
    normDistance "1500 km".toList = .ok 1500 ∧
    normPrice "€ 1500".toList = .error .nameError := by
  constructor <;> decide

/-- Claim C5, counterexample.  The claim says `"07/95"` resolves to year
1985; the code adds 1990 to any two-digit year of at least 20, so 95
resolves to 1990 + 95 = 2085, not 1985. -/
theorem claim5_counterexample :
    normDate "07/95".toList = .ok (2085, 7) ∧ (2085 : Int) ≠ 1985 := by
  constructor <;> decide

/-- Claim C5, amended.  The date token `"07/95"` normalizes to month 7 and
resolved year 2085 (= 1990 + 95, per the code's pivot rule). -/
theorem claim5_amended : normDate "07/95".toList = .ok (2085, 7) := by
  decide

/-- Claim C6.  For every date token built of a digit month part and a
digit year part whose value `Y` is below 100 (with the month in the
1..12 range `datetime.date` accepts): if `Y < 20` the resolved year is
`2000 + Y`, otherwise it is `1990 + Y`. -/
theorem claim6_two_digit_year_pivot (ms ys : PyStr) (hm : ms.all Char.isDigit = true)
    (hy : ys.all Char.isDigit = true) (hmne : ms ≠ []) (hyne : ys ≠ [])
    (hy2 : natOfDigits ys < 100) (hm1 : 1 ≤ natOfDigits ms)
    (hm12 : natOfDigits ms ≤ 12) :
    normDate (ms ++ '/' :: ys) =
      .ok ((if natOfDigits ys < 20 then 2000 + (natOfDigits ys : Int)
            else 1990 + (natOfDigits ys : Int)), (natOfDigits ms : Int)) := by
  have hallm : ∀ c ∈ ms, c.isDigit = true := by simpa [List.all_eq_true] using hm
  have hally : ∀ c ∈ ys, c.isDigit = true := by simpa [List.all_eq_true] using hy
  have hms : '/' ∉ ms := fun hc => by
    have := hallm _ hc; simp at this
  have hys : '/' ∉ ys := fun hc => by
    have := hally _ hc; simp at this
  simp only [normDate, splitSep_pair hms hys, pyIntParse_digits hmne hm,
    pyIntParse_digits hyne hy]
  rw [if_pos (by refine ⟨by exact_mod_cast hm1, by exact_mod_cast hm12, ?_, ?_⟩ <;>
        split_ifs <;> omega)]
  by_cases h20 : natOfDigits ys < 20
  · rw [if_pos (by exact_mod_cast h20), if_pos h20, Int.add_comm]
  · rw [if_neg (by exact_mod_cast h20), if_neg h20, Int.add_comm]

/-- Witness for C6: the token `"07/95"` (month part `"07"`, year part
`"95"`, so Y = 95 ≥ 20) resolves to year 1990 + 95 = 2085. -/
theorem claim6_witness :
    normDate ("07".toList ++ '/' :: "95".toList) =
      .ok ((if natOfDigits "95".toList < 20 then 2000 + (natOfDigits "95".toList : Int)
            else 1990 + (natOfDigits "95".toList : Int)),
        (natOfDigits "07".toList : Int)) :=
  claim6_two_digit_year_pivot "07".toList "95".toList (by decide) (by decide)
    (by decide) (by decide) (by decide) (by decide) (by decide)

/-- Claim C4, counterexample.  The claim says every dot-token normalizes to
`round(float(token) * 1000)`.  The code truncates (`int(...)`) instead of
rounding: at the distance token `"1.1875 km"` (whose value 1.1875 is an
exactly representable double, so the exact model agrees with CPython),
`float("1.1875") * 1000 = 1187.5`; the code yields `int(1187.5) = 1187`
while `round(1187.5) = 1188`. -/
theorem claim4_counterexample :
    normDistance "1.1875 km".toList = .ok 1187 ∧
    (pyFloatParse "1.1875".toList).map (fun p => pyRoundFrac (p.1 * 1000) (10 ^ p.2)) =
      some 1188 ∧ (1187 : Int) ≠ 1188 := by
  refine ⟨by decide, by decide, by decide⟩

set_option linter.unusedVariables false in
/-- Claim C4, amended.  For every valid distance or price token containing
`'.'` whose cleaned part is a plain decimal with at most three fractional
digits denoting a MULTIPLE OF 1/8, with at most 12 significant digits
(so both the token's value and its thousandfold are exactly representable
IEEE doubles and CPython computes them without rounding — this covers the
regional thousands notation `"12.5"` → 12500, `"3.25"`, `"7.125"`, ...),
the normalizer returns `round(float(token) * 1000)`, the exact integer
value in thousandths.  Outside this domain the original claim fails in
two independent ways: with finer fractions the code truncates toward
zero where the claim's formula rounds to nearest (the counterexample
`"1.1875"`: 1187 vs 1188), and on non-dyadic fractions the double
rounding of CPython's `float` can shift the result by one
(`int(float("1.015") * 1000) = 1014`, not 1015).  The hypotheses `hdy`
(fractional part `fp` is a multiple of 1/8: `10 ^ |fp|` divides
`8 * natOfDigits fp`) and `hlen` (at most 12 significant digits) delimit
exactly the domain on which the exact-decimal embedding coincides with
IEEE double arithmetic, so the theorem is not easier than the program.
The token shapes are the source's: a distance token carries a 3-character
unit suffix (stripped by `[:-3]`), a price token a 2-character currency
prefix (stripped by `[2:]`). -/
theorem claim4_amended (ip fp unit p2 : PyStr)
    (hip : ip.all Char.isDigit = true) (hfp : fp.all Char.isDigit = true)
    (hk : fp.length ≤ 3) (hne : ip ++ fp ≠ []) (hu : unit.length = 3)
    (hp2 : p2.length = 2)
    (hdy : (8 * natOfDigits fp) % 10 ^ fp.length = 0)
    (hlen : (ip ++ fp).length ≤ 12) :
    normDistance (ip ++ '.' :: fp ++ unit) =
      .ok ((natOfDigits (ip ++ fp) : Int) * 10 ^ (3 - fp.length)) ∧
    normPrice (p2 ++ (ip ++ '.' :: fp)) =
      .ok ((natOfDigits (ip ++ fp) : Int) * 10 ^ (3 - fp.length)) ∧
    (pyFloatParse (ip ++ '.' :: fp)).map (fun p => pyRoundFrac (p.1 * 1000) (10 ^ p.2)) =
      some ((natOfDigits (ip ++ fp) : Int) * 10 ^ (3 - fp.length)) := by
  have hassoc : ip ++ '.' :: fp ++ unit = (ip ++ '.' :: fp) ++ unit := by simp
  have hval : ((natOfDigits (ip ++ fp) : Int) * 1000) =
      ((natOfDigits (ip ++ fp) : Int) * 10 ^ (3 - fp.length)) * 10 ^ fp.length := by
    rw [mul_assoc, ← pow_add]
    congr 1
    have h3 : 3 - fp.length + fp.length = 3 := by omega
    rw [h3]
    norm_num
  refine ⟨?_, ?_, ?_⟩
  · have hdot : (ip ++ '.' :: fp ++ unit).contains '.' = true := by
      simp [List.contains]
    have hlen : (ip ++ '.' :: fp ++ unit).length - 3 = (ip ++ '.' :: fp).length := by
      simp [hu]
      omega
    have htake : (ip ++ '.' :: fp ++ unit).take ((ip ++ '.' :: fp ++ unit).length - 3) =
        ip ++ '.' :: fp := by
      rw [hlen, hassoc, List.take_left]
    simp only [normDistance, hdot, htake, if_true, pyFloatParse_dec hip hfp hne]
    rw [hval, pyTruncFrac_exact]
  · have hdot : (p2 ++ (ip ++ '.' :: fp)).contains '.' = true := by
      simp [List.contains]
    have hdrop : (p2 ++ (ip ++ '.' :: fp)).drop 2 = ip ++ '.' :: fp :=
      List.drop_left' hp2
    simp only [normPrice, hdot, hdrop, if_true, pyFloatParse_dec hip hfp hne]
    rw [hval, pyTruncFrac_exact]
  · rw [pyFloatParse_dec hip hfp hne]
    simp only [Option.map_some']
    rw [hval, pyRoundFrac_exact _ _ (by positivity)]

/-- Witness for C4 (amended): the spec's own example `"12.5"` (value a
multiple of 1/8, three significant digits), as the distance token
`"12.5 km"` and the price token `"€ 12.5"`, normalizes to
`125 * 10 ^ 2 = 12500 = round(12.5 * 1000)`. -/
theorem claim4_witness :
    normDistance ("12".toList ++ '.' :: "5".toList ++ " km".toList) =
      .ok ((natOfDigits ("12".toList ++ "5".toList) : Int) * 10 ^ (3 - "5".toList.length)) ∧
    normPrice ("€ ".toList ++ ("12".toList ++ '.' :: "5".toList)) =
      .ok ((natOfDigits ("12".toList ++ "5".toList) : Int) * 10 ^ (3 - "5".toList.length)) ∧
    (pyFloatParse ("12".toList ++ '.' :: "5".toList)).map
        (fun p => pyRoundFrac (p.1 * 1000) (10 ^ p.2)) =
      some ((natOfDigits ("12".toList ++ "5".toList) : Int) * 10 ^ (3 - "5".toList.length)) :=
  claim4_amended "12".toList "5".toList " km".toList "€ ".toList
    (by decide) (by decide) (by decide) (by decide) (by decide) (by decide)
    (by decide) (by decide)

/-- Claim C2, counterexample.  The claim says a block with a malformed
token is skipped with a warning and the remaining blocks still yield
Listings.  On a page whose first block has the malformed distance token
`"abc km"` and whose second block is fully valid, `get_page_bikes` has no
exception handler, so the `ValueError` aborts the whole page: no Listing
is produced at all, although the second block alone extracts fine. -/
theorem claim2_counterexample :
    get_page_bikes ⟨[malformedBlock, sampleBlock1], none⟩ = .error .valueError ∧
    extractBlock sampleBlock1 = .ok sampleListing1 := by
  constructor <;> decide

/-- Shared shape of the abort behaviour: a failing block makes the whole
page extraction fail, provided the blocks before it succeed. -/
theorem extractBlocks_error (b : List PyStr) (post : List (List PyStr))
    (e : PyErr) : ∀ (pre : List (List PyStr)), extractBlock b = .error e →
    (∀ x ∈ pre, ∃ l, extractBlock x = .ok l) →
    extractBlocks (pre ++ b :: post) = .error e := by
  intro pre hb hpre
  induction pre with
  | nil =>
    simp only [List.nil_append, extractBlocks, hb, except_bind_error]
  | cons x xs ih =>
    obtain ⟨l, hl⟩ := hpre x (by simp)
    simp only [List.cons_append, extractBlocks, hl, except_bind_ok, List.append_eq]
    rw [ih (fun y hy => hpre y (by simp [hy]))]
    rfl

/-- Claim C2, amended.  A malformed field token in an ad block raises an
uncaught exception that aborts the extraction of the entire page (and
with it the crawl): no block is skipped, no warning is logged, and the
other blocks of the page yield no Listings. -/
theorem claim2_amended (pre : List (List PyStr)) (b : List PyStr)
    (post : List (List PyStr)) (e : PyErr) (pg : Option (List PyStr))
    (hb : extractBlock b = .error e)
    (hpre : ∀ x ∈ pre, ∃ l, extractBlock x = .ok l) :
    get_page_bikes ⟨pre ++ b :: post, pg⟩ = .error e :=
  extractBlocks_error b post e pre hb hpre

/-- Witness for C2 (amended): a three-block page whose middle block has
the malformed distance token `"abc km"` aborts with `ValueError`. -/
theorem claim2_witness :
    get_page_bikes ⟨[sampleBlock1] ++ malformedBlock :: [sampleBlock3], none⟩ =
      .error .valueError :=
  claim2_amended [sampleBlock1] malformedBlock [sampleBlock3] .valueError none
    (by decide)
    (fun x hx => by
      simp only [List.mem_singleton] at hx
      exact ⟨sampleListing1, by rw [hx]; decide⟩)

/-- Claim C3, counterexample.  The claim says an absent pagination control
makes `get_last_page_number` return 2.  `soup.find` returns `None` there,
so `.text` raises `AttributeError`, which the `except ValueError` clause
does not catch: the function fails instead of returning 2. -/
theorem claim3_counterexample :
    get_last_page_number ⟨[], none⟩ = .error .attributeError ∧
    get_last_page_number ⟨[], none⟩ ≠ .ok 2 := by
  constructor <;> decide

/-- Claim C3, amended.  When the pagination control is present, has at
least two text lines, and its second-to-last line is not parseable as an
integer, `get_last_page_number` returns exactly 2; when the control is
absent it raises `AttributeError` (failing the crawl) instead. -/
theorem claim3_amended (bs : List (List PyStr)) (lines : List PyStr)
    (hlen : 2 ≤ lines.length)
    (hp : pyIntParse (lines.getD (lines.length - 2) []) = none) :
    get_last_page_number ⟨bs, some lines⟩ = .ok 2 ∧
    get_last_page_number ⟨bs, none⟩ = .error .attributeError := by
  constructor
  · simp only [get_last_page_number, if_pos hlen, hp]
  · rfl

/-- Witness for C3 (amended): a pagination control whose lines read
`["«", "»"]` (second-to-last not an integer) yields 2; an absent one
raises `AttributeError`. -/
theorem claim3_witness :
    get_last_page_number ⟨[], some ["«".toList, "»".toList]⟩ = .ok 2 ∧
    get_last_page_number ⟨[], none⟩ = .error .attributeError :=
  claim3_amended [] ["«".toList, "»".toList] (by decide) (by decide)

/-- Claim C10.  Positional field extraction is only defined for blocks
with at least five non-blank lines after the adversarial cleanup (and at
least one before it, for the `text[-1]` marker check): any block with
fewer lines makes `extractBlock` end in `IndexError` — the uncaught
out-of-range indexing of `text[-1]` or of `text[0]/text[-5]` — rather
than being skipped or reported as a `ParseError`. -/
theorem claim10_short_block_index_error (raw : List PyStr)
    (h : ∀ t, dropInjected (cleanLines raw) = .ok t → t.length < 5) :
    extractBlock raw = .error .indexError := by
  unfold extractBlock
  cases hd : dropInjected (cleanLines raw) with
  | error e =>
    have he : e = .indexError := by
      unfold dropInjected at hd
      cases hgl : (cleanLines raw).getLast? with
      | none => rw [hgl] at hd; injection hd with h1; exact h1.symm
      | some last => rw [hgl] at hd; cases hd
    rw [except_bind_error, he]
  | ok t =>
    rw [except_bind_ok]
    rw [if_neg (by have := h t hd; omega)]

/-- Witness for C10: a two-line block (fewer than five lines, no marker)
raises `IndexError`. -/
theorem claim10_witness :
    extractBlock ["desc".toList, "x".toList] = .error .indexError :=
  claim10_short_block_index_error ["desc".toList, "x".toList]
    (fun t ht => by
      rw [show dropInjected (cleanLines ["desc".toList, "x".toList]) =
          Except.ok ["desc".toList, "x".toList] from by decide] at ht
      injection ht with h1
      rw [← h1]
      decide)

/-! ## Lemmas on the URL substitution and template instantiation -/

theorem isChunkHere_false_of_ne {c : Char} (rest : PyStr) (hc : c ≠ '&') :
    isChunkHere (c :: rest) = false := by
  unfold isChunkHere
  simp [List.take_succ_cons, hc]

theorem isChunkHere_chunk {d : Char} (ds' : PyStr) (hd : d.isDigit = true) :
    isChunkHere ('&' :: 'p' :: 'g' :: '=' :: d :: ds') = true := by
  unfold isChunkHere
  simp [hd]

theorem subAux_none_no_amp {l : PyStr} (h : ∀ c ∈ l, c ≠ '&') : subAux l = none := by
  induction l with
  | nil => rfl
  | cons c rest ih =>
    unfold subAux
    rw [ih (fun x hx => h x (by simp [hx]))]
    rw [isChunkHere_false_of_ne rest (h c (by simp))]
    simp

theorem subAux_append_chunk {ds : PyStr} (hne : ds ≠ [])
    (hd : ds.all Char.isDigit = true) :
    ∀ X : PyStr, subAux (X ++ '&' :: 'p' :: 'g' :: '=' :: ds) = some X := by
  have hall : ∀ c ∈ ds, c.isDigit = true := by simpa [List.all_eq_true] using hd
  intro X
  induction X with
  | nil =>
    cases ds with
    | nil => exact absurd rfl hne
    | cons d ds' =>
      rw [List.nil_append]
      unfold subAux
      rw [subAux_none_no_amp (l := 'p' :: 'g' :: '=' :: d :: ds') ?noamp]
      case noamp =>
        intro c hc
        simp only [List.mem_cons] at hc
        rcases hc with rfl | rfl | rfl | rfl | hc
        · decide
        · decide
        · decide
        · exact isDigit_ne_char '&' (hall _ (by simp)) (by decide)
        · exact isDigit_ne_char '&' (hall c (by simp [hc])) (by decide)
      rw [isChunkHere_chunk ds' (hall d (by simp))]
      simp only [if_true]
      rw [show ('&' :: 'p' :: 'g' :: '=' :: d :: ds').drop 4 = d :: ds' from rfl]
      rw [List.dropWhile_eq_nil_iff.mpr (fun x hx => hall x hx)]
  | cons x xs ih =>
    rw [List.cons_append]
    unfold subAux
    rw [ih]

theorem subLine_append_chunk {ds : PyStr} (hne : ds ≠ [])
    (hd : ds.all Char.isDigit = true) (X : PyStr) :
    subLine (X ++ '&' :: 'p' :: 'g' :: '=' :: ds) = X := by
  unfold subLine
  rw [subAux_append_chunk hne hd X]
  rfl

theorem subAux_subset {l r : PyStr} (h : subAux l = some r) : ∀ c ∈ r, c ∈ l := by
  induction l generalizing r with
  | nil => cases h
  | cons x xs ih =>
    unfold subAux at h
    cases hs : subAux xs with
    | some r' =>
      rw [hs] at h
      injection h with h1
      intro c hc
      rw [← h1] at hc
      rcases List.mem_cons.mp hc with rfl | hc
      · simp
      · simp [ih hs c hc]
    | none =>
      rw [hs] at h
      by_cases hch : isChunkHere (x :: xs) = true
      · rw [if_pos hch] at h
        injection h with h1
        intro c hc
        rw [← h1] at hc
        have h2 : c ∈ (x :: xs).drop 4 :=
          (List.dropWhile_sublist _).subset hc
        exact (List.drop_sublist 4 (x :: xs)).subset h2
      · rw [if_neg hch] at h
        cases h

theorem subLine_subset (l : PyStr) : ∀ c ∈ subLine l, c ∈ l := by
  unfold subLine
  cases hs : subAux l with
  | none => intro c hc; simpa using hc
  | some r => simpa using subAux_subset hs

theorem stripPg_single {l : PyStr} (h : '\n' ∉ l) : stripPg l = subLine l := by
  unfold stripPg
  rw [splitSep_no_sep h]
  rfl

theorem formatPage_page {X : PyStr} (n : Nat) (h1 : '{' ∉ X) (h2 : '}' ∉ X) :
    pyFormatPage (X ++ '{' :: 'p' :: 'a' :: 'g' :: 'e' :: '}' :: []) n =
      .ok (X ++ natDigits n) := by
  induction X with
  | nil =>
    show pyFormatPage ('{' :: 'p' :: 'a' :: 'g' :: 'e' :: '}' :: []) n = _
    simp [pyFormatPage]
  | cons c cs ih =>
    rw [List.cons_append]
    rw [pyFormatPage.eq_def]
    simp only []
    rw [if_neg (fun hc => h1 (by simp [hc])), if_neg (fun hc => h2 (by simp [hc]))]
    rw [ih (fun hc => h1 (by simp [hc])) (fun hc => h2 (by simp [hc]))]
    rfl

/-- Claim C8.  For every ad block whose final non-blank text line contains
the injection marker, the extractor drops that last line before positional
field extraction; on the fixed sample page of three blocks (the second of
which carries the marker on its trailing line) exactly three Listings come
out and the marker text appears in no field (the description strings are
marker-free; the remaining fields are integers extracted from numeric
tokens). -/
theorem claim8_marker_line_dropped (raw : List PyStr) (last : PyStr)
    (hl : (cleanLines raw).getLast? = some last)
    (hm : containsSub injectionMarker last = true) :
    dropInjected (cleanLines raw) = .ok ((cleanLines raw).dropLast) ∧
    get_page_bikes samplePage =
      .ok [sampleListing1, sampleListing2, sampleListing3] ∧
    ([sampleListing1, sampleListing2, sampleListing3].all
      (fun l => !containsSub injectionMarker l.description)) = true := by
  refine ⟨?_, by decide, by decide⟩
  unfold dropInjected
  rw [hl]
  simp only []
  rw [if_pos hm]

/-- Witness for C8: the marked sample block itself; its clean lines end in
the marker line `"googletag stuff"`, which is dropped. -/
theorem claim8_witness :
    dropInjected (cleanLines sampleBlock2) = .ok ((cleanLines sampleBlock2).dropLast) ∧
    get_page_bikes samplePage =
      .ok [sampleListing1, sampleListing2, sampleListing3] ∧
    ([sampleListing1, sampleListing2, sampleListing3].all
      (fun l => !containsSub injectionMarker l.description)) = true :=
  claim8_marker_line_dropped sampleBlock2 "googletag stuff".toList
    (by decide) (by decide)

/-- Claim C7.  `normalize_url` is idempotent through an instantiation
round-trip: for every input URL (a URL contains no brace and no newline
characters) and every page number, instantiating the produced template
with `format(page=n)` and normalizing the instantiated URL again yields
the same page-template string as the first normalization. -/
theorem claim7_normalize_url_idempotent (u : PyStr) (n : Nat)
    (h1 : '{' ∉ u) (h2 : '}' ∉ u) (h3 : '\n' ∉ u) :
    (pyFormatPage (normalize_url u) n).map normalize_url = .ok (normalize_url u) := by
  have hX1 : '{' ∉ subLine u := fun hc => h1 (subLine_subset u _ hc)
  have hX2 : '}' ∉ subLine u := fun hc => h2 (subLine_subset u _ hc)
  have hX3 : '\n' ∉ subLine u := fun hc => h3 (subLine_subset u _ hc)
  have hnu : normalize_url u = subLine u ++ "&pg={page}".toList := by
    unfold normalize_url
    rw [stripPg_single h3]
  have hshape : subLine u ++ "&pg={page}".toList =
      (subLine u ++ '&' :: 'p' :: 'g' :: '=' :: []) ++
        '{' :: 'p' :: 'a' :: 'g' :: 'e' :: '}' :: [] := by
    simp
  have hfmt : pyFormatPage (normalize_url u) n =
      .ok ((subLine u ++ '&' :: 'p' :: 'g' :: '=' :: []) ++ natDigits n) := by
    rw [hnu, hshape]
    refine formatPage_page n ?_ ?_
    · intro hc
      rcases List.mem_append.mp hc with hc | hc
      · exact hX1 hc
      · simp at hc
    · intro hc
      rcases List.mem_append.mp hc with hc | hc
      · exact hX2 hc
      · simp at hc
  rw [hfmt]
  simp only [Except.map]
  have hdigits : ((subLine u ++ '&' :: 'p' :: 'g' :: '=' :: []) ++ natDigits n) =
      subLine u ++ '&' :: 'p' :: 'g' :: '=' :: natDigits n := by
    simp
  rw [hdigits]
  have hnl2 : '\n' ∉ subLine u ++ '&' :: 'p' :: 'g' :: '=' :: natDigits n := by
    intro hc
    rcases List.mem_append.mp hc with hc | hc
    · exact hX3 hc
    · simp only [List.mem_cons] at hc
      rcases hc with hc | hc | hc | hc | hc
      · exact absurd hc (by decide)
      · exact absurd hc (by decide)
      · exact absurd hc (by decide)
      · exact absurd hc (by decide)
      · have hall : ∀ c ∈ natDigits n, c.isDigit = true := by
          simpa [List.all_eq_true] using natDigits_all_digit n
        exact isDigit_ne_char '\n' (hall _ hc) (by decide) rfl
  show Except.ok (normalize_url (subLine u ++ '&' :: 'p' :: 'g' :: '=' :: natDigits n)) =
    Except.ok (normalize_url u)
  unfold normalize_url
  rw [stripPg_single hnl2, stripPg_single h3]
  rw [subLine_append_chunk (natDigits_ne_nil n) (natDigits_all_digit n)]

/-- Witness for C7: the URL `"http://car.gr?x=1&pg=9"` at page 3. -/
theorem claim7_witness :
    (pyFormatPage (normalize_url "http://car.gr?x=1&pg=9".toList) 3).map normalize_url =
      .ok (normalize_url "http://car.gr?x=1&pg=9".toList) :=
  claim7_normalize_url_idempotent "http://car.gr?x=1&pg=9".toList 3
    (by decide) (by decide) (by decide)

/-- On a brace-free, newline-free URL, instantiating the normalized
template at page `k` produces `instPage u k`. -/
theorem formatPage_template (u : PyStr) (k : Nat)
    (h1 : '{' ∉ u) (h2 : '}' ∉ u) (h3 : '\n' ∉ u) :
    pyFormatPage (normalize_url u) k = .ok (instPage u k) := by
  have hX1 : '{' ∉ subLine u := fun hc => h1 (subLine_subset u _ hc)
  have hX2 : '}' ∉ subLine u := fun hc => h2 (subLine_subset u _ hc)
  have hnu : normalize_url u = subLine u ++ "&pg={page}".toList := by
    unfold normalize_url
    rw [stripPg_single h3]
  have hshape : subLine u ++ "&pg={page}".toList =
      (subLine u ++ '&' :: 'p' :: 'g' :: '=' :: []) ++
        '{' :: 'p' :: 'a' :: 'g' :: 'e' :: '}' :: [] := by
    simp
  rw [hnu, hshape]
  rw [formatPage_page k
    (fun hc => by
      rcases List.mem_append.mp hc with hc | hc
      · exact hX1 hc
      · simp at hc)
    (fun hc => by
      rcases List.mem_append.mp hc with hc | hc
      · exact hX2 hc
      · simp at hc)]
  unfold instPage
  simp

/-- The page loop: when template instantiation, fetching and extraction
succeed on every listed page, the loop returns the concatenation of the
per-page listings in list order. -/
theorem crawlPages_ok (fetch : PyStr → Except PyErr Soup) (tpl : PyStr)
    (ι : Nat → PyStr) (site : Nat → Soup) (L : Nat → List Listing) :
    ∀ ps : List Nat,
    (∀ p ∈ ps, pyFormatPage tpl p = .ok (ι p)) →
    (∀ p ∈ ps, fetch (ι p) = .ok (site p)) →
    (∀ p ∈ ps, get_page_bikes (site p) = .ok (L p)) →
    crawlPages fetch tpl ps = .ok (ps.flatMap L) := by
  intro ps
  induction ps with
  | nil => intro _ _ _; rfl
  | cons p ps ih =>
    intro hf he hb
    unfold crawlPages
    rw [hf p (by simp), except_bind_ok, he p (by simp), except_bind_ok,
      hb p (by simp), except_bind_ok,
      ih (fun q hq => hf q (by simp [hq])) (fun q hq => he q (by simp [hq]))
        (fun q hq => hb q (by simp [hq])),
      except_bind_ok]
    rfl

/-- Claim C9.  For every (brace-free, newline-free) input URL: when page 1
fetches and extracts successfully, its pagination control yields the total
page count `n ≥ 1`, and each page `2 .. n` also fetches and extracts
successfully, `get_data` returns the concatenation of the per-page
listings over pages `1, 2, ..., n` — page 1 first, then every further
page in strictly increasing order. -/
theorem claim9_crawl_pages_in_order (fetch : PyStr → Except PyErr Soup) (u : PyStr)
    (site : Nat → Soup) (L : Nat → List Listing) (n : Nat)
    (h1 : '{' ∉ u) (h2 : '}' ∉ u) (h3 : '\n' ∉ u)
    (hn1 : 1 ≤ n)
    (hfetch : ∀ k, 1 ≤ k → k ≤ n → fetch (instPage u k) = .ok (site k))
    (hbikes : ∀ k, 1 ≤ k → k ≤ n → get_page_bikes (site k) = .ok (L k))
    (hlast : get_last_page_number (site 1) = .ok (n : Int)) :
    get_data fetch u = .ok ((List.range' 1 n).flatMap L) := by
  unfold get_data
  rw [formatPage_template u 1 h1 h2 h3, except_bind_ok,
    hfetch 1 (by omega) (by omega), except_bind_ok,
    hbikes 1 (by omega) (by omega), except_bind_ok,
    hlast, except_bind_ok]
  have htn : ((n : Int) - 1).toNat = n - 1 := by omega
  rw [htn]
  have hmem : ∀ p ∈ List.range' 2 (n - 1), 2 ≤ p ∧ p ≤ n := by
    intro p hp
    rw [List.mem_range'] at hp
    obtain ⟨i, hi, rfl⟩ := hp
    omega
  rw [crawlPages_ok fetch (normalize_url u) (instPage u) site L
    (List.range' 2 (n - 1))
    (fun p hp => formatPage_template u p h1 h2 h3)
    (fun p hp => hfetch p (by have := (hmem p hp).1; omega) (hmem p hp).2)
    (fun p hp => hbikes p (by have := (hmem p hp).1; omega) (hmem p hp).2),
    except_bind_ok]
  have hsplit : List.range' 1 n = 1 :: List.range' 2 (n - 1) := by
    cases n with
    | zero => omega
    | succ m => rw [List.range'_succ]; simp
  rw [hsplit]
  rfl

/-- Witness for C9: the two-page fixture site — page 1 holds listings
A (`sampleListing1`) and B (`sampleListing2`), page 2 holds listing
C (`sampleListing3`) — crawled from `"http://car.gr?x=1"`, yields
`[A, B, C]` in that order. -/
theorem claim9_witness :
    get_data fixtureFetch "http://car.gr?x=1".toList =
      .ok [sampleListing1, sampleListing2, sampleListing3] :=
  (claim9_crawl_pages_in_order fixtureFetch "http://car.gr?x=1".toList
    fixtureSite fixtureListings 2
    (by decide) (by decide) (by decide) (by omega)
    (fun k hk1 hk2 => by interval_cases k <;> decide)
    (fun k hk1 hk2 => by interval_cases k <;> decide)
    (by decide)).trans (by decide)
